import Mathlib

/-!
# Verification of the `portcheck` utility

A shallow embedding of the repository's two Go source files (`src/main.go`
and `src/unnamed/part_000`, near-duplicate programs) together with proofs
about the embedded definitions.

Conventions of the embedding:
* Go strings are Lean `String`s; the Go standard-library helpers the source
  uses (`strings.Fields`, `strings.Split` with a one-character separator,
  `strings.TrimSpace`, `strconv.Atoi`, `fmt.Sprintf "%04X"`) are re-implemented
  below by structural recursion on the character list, so that every
  definition is executable and kernel-reducible.  `strings.Fields` in Go
  splits on Unicode white space; the embedding splits on `Char.isWhitespace`
  (space, tab, CR, LF), which agrees on the ASCII socket-table text the
  program reads.  `strconv.Atoi`'s 64-bit overflow error is not modelled
  (`Int` is unbounded); process-directory names are far below that bound.
* The outside world read by the program (result of `net.Listen`, the
  `/proc/net/tcp` and `/proc/net/tcp6` files, the `/proc` process tree) is a
  `SysState` record passed explicitly.  A file that cannot be opened is
  `none`; a file's content is its list of lines.
* Fallible reads inside `/proc/<pid>` are `Option`s: `fds = none` models an
  unreadable fd directory, a `none` element models a failed `readlink`,
  `comm = none` an unreadable `comm` file.
-/

namespace Portcheck

/-! ## Go string primitives -/

/-- Splitting a character list at every character satisfying `p`, keeping
empty segments: the common core of `strings.Fields` and `strings.Split`
with a one-character separator.  `acc` holds the current segment reversed. -/
def splitPredAux (p : Char → Bool) : List Char → List Char → List (List Char)
  | [], acc => [acc.reverse]
  | c :: cs, acc =>
    if p c then acc.reverse :: splitPredAux p cs []
    else splitPredAux p cs (c :: acc)

/-- Go `strings.Fields`: split on white space and drop empty segments. -/
def goFields (s : String) : List String :=
  ((splitPredAux (fun c => c.isWhitespace) s.data []).filter (fun f => f ≠ [])).map
    (fun f => String.mk f)

/-- Go `strings.Split (s, c)` for a one-character separator `c`:
split at every occurrence, keeping empty segments. -/
def goSplitChar (c : Char) (s : String) : List String :=
  (splitPredAux (fun x => x = c) s.data []).map (fun f => String.mk f)

/-- Go `strings.TrimSpace`: drop white space from both ends. -/
def goTrim (s : String) : String :=
  String.mk (((s.data.dropWhile Char.isWhitespace).reverse.dropWhile
    Char.isWhitespace).reverse)

/-- Decimal value of a non-empty all-digit character list, accumulator form. -/
def digitsValAux : List Char → Nat → Option Nat
  | [], acc => some acc
  | c :: cs, acc =>
    if c.isDigit then digitsValAux cs (10 * acc + (c.toNat - 48)) else none

/-- Go `strconv.Atoi`: optional sign, then at least one decimal digit and
nothing else (the 64-bit range error is not modelled). -/
def goAtoi (s : String) : Option Int :=
  match s.data with
  | [] => none
  | '+' :: rest => if rest = [] then none else (digitsValAux rest 0).map Int.ofNat
  | '-' :: rest =>
    if rest = [] then none else (digitsValAux rest 0).map (fun n => -(n : Int))
  | l => (digitsValAux l 0).map Int.ofNat

/-- One uppercase hexadecimal digit, as `%X` prints it. -/
def hexDigit (n : Nat) : Char :=
  if n < 10 then Char.ofNat (48 + n) else Char.ofNat (55 + n)

/-- Go `fmt.Sprintf ("%04X", port)` for `port < 65536` (the program only
formats validated ports, which lie in 1..65535): exactly four uppercase
hexadecimal digits, zero padded. -/
def portHex (port : Nat) : String :=
  String.mk [hexDigit (port / 4096 % 16), hexDigit (port / 256 % 16),
    hexDigit (port / 16 % 16), hexDigit (port % 16)]

/-- The sixteen uppercase hexadecimal digit characters. -/
def hexUpper : List Char :=
  ['0', '1', '2', '3', '4', '5', '6', '7', '8', '9', 'A', 'B', 'C', 'D', 'E', 'F']

/-- Numeric value of an uppercase hexadecimal digit character
(an independent reading function, used to state what `portHex` encodes). -/
def hexVal (c : Char) : Nat :=
  if c.toNat ≤ 57 then c.toNat - 48 else c.toNat - 55

/-- Value encoded by a string of uppercase hexadecimal digits, most
significant first. -/
def fromHexStr (s : String) : Nat :=
  s.data.foldl (fun a c => 16 * a + hexVal c) 0

/-! ## Data model -/

/-- `PortResult` of both Go files: Go zero values are `0` and `""`. -/
structure PortResult where
  Port : Nat
  InUse : Bool
  PID : Int
  Process : String
deriving DecidableEq, Repr

/-- One directory entry of `/proc`: its name, its `fd` subdirectory
(`none` when unreadable; each element a `readlink` result, `none` when the
call fails) and its `comm` file (`none` when unreadable). -/
structure ProcEntry where
  name : String
  fds : Option (List (Option String))
  comm : Option String
deriving DecidableEq, Repr

/-- The opened `/proc` directory: what `Readdirnames(-1)` returned, and
whether it also reported an error (in which case `entries` is what was read
before the failure). -/
structure ProcDir where
  entries : List ProcEntry
  readErr : Bool
deriving DecidableEq, Repr

/-- The outside world as the program observes it: whether `net.Listen`
fails on a port, the two socket-table files (`none` = unopenable, otherwise
the list of lines) and the `/proc` tree (`none` = unopenable). -/
structure SysState where
  listenFails : Nat → Bool
  tcp4 : Option (List String)
  tcp6 : Option (List String)
  proc : Option ProcDir

/-! ## `src/main.go` (v1) -/

/-- The inner fd loop of `findPIDByInode`: does any readable descriptor
link equal the socket link?  (The Go code returns at the first match; every
match inside one entry yields the same result, so existence is what
matters.) -/
def hasLink (fds : List (Option String)) (link : String) : Bool :=
  fds.any (fun l => l = some link)

/-- The entry loop of `main.go`'s `findPIDByInode`: skip entries whose name
is not a number or whose fd directory is unreadable; on the first entry
holding the socket link, return its pid and the trimmed `comm` content —
`main.go` ignores the `ReadFile` error, so an unreadable `comm` reads as the
empty string. -/
def scanEntries (link : String) : List ProcEntry → Int × String
  | [] => (0, "")
  | e :: es =>
    match goAtoi e.name with
    | none => scanEntries link es
    | some pid =>
      match e.fds with
      | none => scanEntries link es
      | some fds =>
        if hasLink fds link then (pid, goTrim ((e.comm).getD ""))
        else scanEntries link es

/-- `main.go` `findPIDByInode`: `main.go` discards the `Readdirnames` error
(`entries, _ := ...`) and scans whatever names were read. -/
def findPIDByInode (proc : Option ProcDir) (inode : String) : Int × String :=
  match proc with
  | none => (0, "")
  | some d => scanEntries ("socket:[" ++ inode ++ "]") d.entries

/-- The row condition of `searchNetFile` in `main.go`:
`len(fields) >= 10`, `parts := strings.Split(fields[1], ":")`,
`len(parts) == 2 && parts[1] == portHex && fields[3] == "0A"`. -/
def rowMatch (port : Nat) (row : String) : Bool :=
  let fields := goFields row
  if fields.length < 10 then false
  else
    let parts := goSplitChar ':' (fields.getD 1 "")
    parts.length == 2 && parts.getD 1 "" == portHex port && fields.getD 3 "" == "0A"

/-- The inode column of a row: `fields[9]`. -/
def rowInode (row : String) : String :=
  (goFields row).getD 9 ""

/-- The scanning loop of `searchNetFile` over the rows after the header:
on the first matching row, return `findPIDByInode fields[9]`; otherwise
continue; no row left means `(0, "")`. -/
def scanRows (proc : Option ProcDir) (port : Nat) : List String → Int × String
  | [] => (0, "")
  | row :: rest =>
    if rowMatch port row then findPIDByInode proc (rowInode row)
    else scanRows proc port rest

/-- `main.go` `searchNetFile`: unopenable file or no lines gives `(0, "")`
(the header `Scan` fails); otherwise the first line is skipped as the header
and the remaining rows are scanned. -/
def searchNetFile (content : Option (List String)) (port : Nat)
    (proc : Option ProcDir) : Int × String :=
  match content with
  | none => (0, "")
  | some [] => (0, "")
  | some (_ :: rows) => scanRows proc port rows

/-- The rows a table scan actually examines: everything after the header. -/
def tableRows : Option (List String) → List String
  | none => []
  | some l => l.tail

/-- `main.go` `findProcessByPort`: try `/proc/net/tcp`, keep its answer if
the pid is positive, else try `/proc/net/tcp6`, else `(0, "")`. -/
def findProcessByPort (tcp4 tcp6 : Option (List String)) (proc : Option ProcDir)
    (port : Nat) : Int × String :=
  if (searchNetFile tcp4 port proc).1 > 0 then searchNetFile tcp4 port proc
  else if (searchNetFile tcp6 port proc).1 > 0 then searchNetFile tcp6 port proc
  else (0, "")

/-- `main.go` `checkPort`: a failed `net.Listen` marks the port in use and,
when `getPID` is set, fills `PID`/`Process` from `findProcessByPort`; a
successful listen is closed and the zero-valued fields are returned. -/
def checkPort (s : SysState) (port : Nat) (getPID : Bool) : PortResult :=
  if s.listenFails port then
    if getPID then
      { Port := port, InUse := true,
        PID := (findProcessByPort s.tcp4 s.tcp6 s.proc port).1,
        Process := (findProcessByPort s.tcp4 s.tcp6 s.proc port).2 }
    else { Port := port, InUse := true, PID := 0, Process := "" }
  else { Port := port, InUse := false, PID := 0, Process := "" }

/-! ## `src/unnamed/part_000` (v2) -/

/-- The entry loop of `part_000`'s `findPIDByInode`: identical to v1 except
that an unreadable `comm` file yields the sentinel name `"unknown"`. -/
def scanEntries2 (link : String) : List ProcEntry → Int × String
  | [] => (0, "")
  | e :: es =>
    match goAtoi e.name with
    | none => scanEntries2 link es
    | some pid =>
      match e.fds with
      | none => scanEntries2 link es
      | some fds =>
        if hasLink fds link then
          match e.comm with
          | none => (pid, "unknown")
          | some c => (pid, goTrim c)
        else scanEntries2 link es

/-- `part_000` `findPIDByInode`: unlike v1 it checks the `Readdirnames`
error and returns `(0, "")` when it is set. -/
def findPIDByInode2 (proc : Option ProcDir) (inode : String) : Int × String :=
  match proc with
  | none => (0, "")
  | some d =>
    if d.readErr then (0, "")
    else scanEntries2 ("socket:[" ++ inode ++ "]") d.entries

/-- The row condition of `searchNetFile` in `part_000`, written with its
two-step `continue` structure. -/
def rowMatch2 (port : Nat) (row : String) : Bool :=
  let fields := goFields row
  if fields.length < 10 then false
  else
    let parts := goSplitChar ':' (fields.getD 1 "")
    if parts.length != 2 then false
    else parts.getD 1 "" == portHex port && fields.getD 3 "" == "0A"

/-- The scanning loop of `part_000`'s `searchNetFile`. -/
def scanRows2 (proc : Option ProcDir) (port : Nat) : List String → Int × String
  | [] => (0, "")
  | row :: rest =>
    if rowMatch2 port row then findPIDByInode2 proc (rowInode row)
    else scanRows2 proc port rest

/-- `part_000` `searchNetFile`. -/
def searchNetFile2 (content : Option (List String)) (port : Nat)
    (proc : Option ProcDir) : Int × String :=
  match content with
  | none => (0, "")
  | some [] => (0, "")
  | some (_ :: rows) => scanRows2 proc port rows

/-- `part_000` `findProcessByPort`. -/
def findProcessByPort2 (tcp4 tcp6 : Option (List String)) (proc : Option ProcDir)
    (port : Nat) : Int × String :=
  if (searchNetFile2 tcp4 port proc).1 > 0 then searchNetFile2 tcp4 port proc
  else if (searchNetFile2 tcp6 port proc).1 > 0 then searchNetFile2 tcp6 port proc
  else (0, "")

/-- `part_000` `checkPort` (it sets `InUse = false` explicitly in the else
branch, which equals the zero value `main.go` leaves in place). -/
def checkPort2 (s : SysState) (port : Nat) (getPID : Bool) : PortResult :=
  if s.listenFails port then
    if getPID then
      { Port := port, InUse := true,
        PID := (findProcessByPort2 s.tcp4 s.tcp6 s.proc port).1,
        Process := (findProcessByPort2 s.tcp4 s.tcp6 s.proc port).2 }
    else { Port := port, InUse := true, PID := 0, Process := "" }
  else { Port := port, InUse := false, PID := 0, Process := "" }

/-! ## The range scanner's sort

Both files sort the collected slice with the same nested-loop swap sort:

    for i (:= 0; i < len; i++) { for j := i+1; j < len; j++ {
      if a[i].Port > a[j].Port { a[i], a[j] = a[j], a[i] } } }

`selectPass x l` is one inner pass with `x` the running value of `a[i]` and
`l` the suffix `a[i+1..]`: whenever `a[i].Port > a[j].Port` the two swap, so
the running value becomes `a[j]` and the old `a[i]` is left at position `j`.
It returns the final `a[i]` and the rewritten suffix.  `selSort` chains the
outer passes. -/

def selectPass (x : PortResult) : List PortResult → PortResult × List PortResult
  | [] => (x, [])
  | y :: ys =>
    if x.Port > y.Port then
      ((selectPass y ys).1, x :: (selectPass y ys).2)
    else
      ((selectPass x ys).1, y :: (selectPass x ys).2)

theorem selectPass_length (x : PortResult) (l : List PortResult) :
    (selectPass x l).2.length = l.length := by
  induction l generalizing x with
  | nil => simp [selectPass]
  | cons y ys ih =>
    simp only [selectPass]
    split
    · simp [ih]
    · simp [ih]

/-- The outer loop of the swap sort. -/
def selSort : List PortResult → List PortResult
  | [] => []
  | x :: xs => (selectPass x xs).1 :: selSort (selectPass x xs).2
termination_by l => l.length
decreasing_by
  simp only [selectPass_length, List.length_cons]
  omega

/-- The multiset of results a range scan hands to the collection channel:
one `checkPort` call per port of `[start, start + n)`, each probe seeing its
own snapshot `worlds p` of the outside world. -/
def scanResults (worlds : Nat → SysState) (showPID : Bool) (start n : Nat) :
    List PortResult :=
  (List.range' start n).map (fun p => checkPort (worlds p) p showPID)

/-! ## The prober's socket effects (for the release property)

`checkPort` is straight-line code; its two paths perform these socket
operations: a failed `net.Listen` (plus the `/proc` reads, which touch no
socket), or a successful `net.Listen` followed by `listener.Close()`. -/

/-- A socket-affecting step of the prober. -/
inductive NetEff where
  | listen (port : Nat) (ok : Bool)
  | close (port : Nat)
deriving DecidableEq, Repr

/-- `checkPort` together with the socket-operation trace of the path taken,
transcribed branch by branch from the Go function body. -/
def checkPortTr (s : SysState) (port : Nat) (getPID : Bool) :
    PortResult × List NetEff :=
  if s.listenFails port then
    (if getPID then
      { Port := port, InUse := true,
        PID := (findProcessByPort s.tcp4 s.tcp6 s.proc port).1,
        Process := (findProcessByPort s.tcp4 s.tcp6 s.proc port).2 }
    else { Port := port, InUse := true, PID := 0, Process := "" },
    [NetEff.listen port false])
  else
    ({ Port := port, InUse := false, PID := 0, Process := "" },
    [NetEff.listen port true, NetEff.close port])

/-- Listening sockets still bound after running a trace from the given
initially bound set. -/
def openSockets (bound : List Nat) : List NetEff → List Nat
  | [] => bound
  | NetEff.listen p true :: r => openSockets (p :: bound) r
  | NetEff.listen _ false :: r => openSockets bound r
  | NetEff.close p :: r => openSockets (bound.erase p) r

/-! ## The range scanner's admission control (for the ceiling property)

`checkPortRange` starts one goroutine per port; each does

    sem <- struct{}{}            // acquire, sem = make(chan struct{}, 100)
    defer func() { <-sem }()     // release
    results <- checkPort(p, showPID)

A task is `pending` before the send on `sem`, `running` from the moment the
send succeeds until the deferred receive (the whole of `checkPort`), then
`done`.  A send on a buffered channel of capacity 100 succeeds exactly when
fewer than 100 slots are taken, i.e. when fewer than 100 tasks are between
their acquire and their release. -/

/-- Capacity of the semaphore channel: `make(chan struct{}, 100)`. -/
def semCapacity : Nat := 100

/-- Phase of one scan goroutine. -/
inductive TaskPhase where
  | pending
  | running
  | done
deriving DecidableEq, Repr

/-- Is a task inside its acquire/release window? -/
def isRunning : TaskPhase → Bool
  | TaskPhase.running => true
  | _ => false

/-- Number of tasks currently holding a semaphore slot (probing). -/
def runningCount (s : List TaskPhase) : Nat :=
  s.countP isRunning

/-- Interleaving steps of the scan: some pending task's send on `sem`
succeeds (possible only while fewer than `semCapacity` slots are taken), or
some running task finishes its probe and releases its slot. -/
inductive SemStep : List TaskPhase → List TaskPhase → Prop
  | acquire (pre post : List TaskPhase) :
      runningCount (pre ++ TaskPhase.pending :: post) < semCapacity →
      SemStep (pre ++ TaskPhase.pending :: post)
        (pre ++ TaskPhase.running :: post)
  | release (pre post : List TaskPhase) :
      SemStep (pre ++ TaskPhase.running :: post)
        (pre ++ TaskPhase.done :: post)

/-- States reachable by interleaving steps. -/
inductive SemReachable (init : List TaskPhase) : List TaskPhase → Prop
  | refl : SemReachable init init
  | step {s t : List TaskPhase} :
      SemReachable init s → SemStep s t → SemReachable init t

/-- The launch state of a scan of `n` ports: every task pending. -/
def initTasks (n : Nat) : List TaskPhase :=
  List.replicate n TaskPhase.pending

/-! ## Helper lemmas: the swap sort -/

theorem checkPort_Port (s : SysState) (port : Nat) (getPID : Bool) :
    (checkPort s port getPID).Port = port := by
  unfold checkPort
  split_ifs <;> rfl

theorem selectPass_perm (x : PortResult) (l : List PortResult) :
    ((selectPass x l).1 :: (selectPass x l).2).Perm (x :: l) := by
  induction l generalizing x with
  | nil => simp [selectPass]
  | cons y ys ih =>
    simp only [selectPass]
    split
    · exact (List.Perm.swap x (selectPass y ys).1 (selectPass y ys).2).trans
        ((ih y).cons x)
    · exact ((List.Perm.swap y (selectPass x ys).1 (selectPass x ys).2).trans
        ((ih x).cons y)).trans (List.Perm.swap x y ys)

theorem selectPass_fst_le (x : PortResult) (l : List PortResult) :
    (selectPass x l).1.Port ≤ x.Port := by
  induction l generalizing x with
  | nil => exact le_refl x.Port
  | cons y ys ih =>
    simp only [selectPass]
    split
    next h => exact le_trans (ih y) (le_of_lt h)
    next h => exact ih x

theorem selectPass_le (x : PortResult) (l : List PortResult) :
    ∀ z ∈ (selectPass x l).2, (selectPass x l).1.Port ≤ z.Port := by
  induction l generalizing x with
  | nil => simp [selectPass]
  | cons y ys ih =>
    simp only [selectPass]
    split
    next h =>
      intro z hz
      rcases List.mem_cons.mp hz with rfl | hz
      · exact le_trans (selectPass_fst_le y ys) (le_of_lt h)
      · exact ih y z hz
    next h =>
      intro z hz
      rcases List.mem_cons.mp hz with rfl | hz
      · exact le_trans (selectPass_fst_le x ys) (le_of_not_lt h)
      · exact ih x z hz

theorem selSort_perm (l : List PortResult) : (selSort l).Perm l := by
  induction l using selSort.induct with
  | case1 => simp [selSort]
  | case2 x xs ih =>
    simp only [selSort]
    exact (ih.cons (selectPass x xs).1).trans (selectPass_perm x xs)

theorem selSort_sorted (l : List PortResult) :
    (selSort l).Pairwise (fun a b => a.Port ≤ b.Port) := by
  induction l using selSort.induct with
  | case1 => simp [selSort]
  | case2 x xs ih =>
    simp only [selSort]
    refine List.pairwise_cons.mpr ⟨?_, ih⟩
    intro z hz
    exact selectPass_le x xs z
      ((selSort_perm (selectPass x xs).2).mem_iff.mp hz)

/-! ## Claim C1 -/

/-- C1: for a valid range scan over `[start, e]` (`1 ≤ start ≤ e ≤ 65535`),
whatever order the per-port probe results arrive in (any permutation
`collected` of the one-result-per-port multiset, each probe seeing its own
world snapshot), the final sorted sequence has exactly `e - start + 1`
entries, its ports are exactly the integers `start..e` in strictly
ascending order, each port once. -/
theorem scan_sorted_complete (worlds : Nat → SysState) (showPID : Bool)
    (start e : Nat) (h1 : 1 ≤ start) (h2 : start ≤ e) (h3 : e ≤ 65535)
    (collected : List PortResult)
    (hperm : collected.Perm (scanResults worlds showPID start (e - start + 1))) :
    (selSort collected).length = e - start + 1 ∧
    (selSort collected).map PortResult.Port = List.range' start (e - start + 1) ∧
    List.Chain' (fun a b => a < b) ((selSort collected).map PortResult.Port) := by
  have hmap : (scanResults worlds showPID start (e - start + 1)).map PortResult.Port
      = List.range' start (e - start + 1) := by
    unfold scanResults
    rw [List.map_map]
    have hcongr : ∀ p ∈ List.range' start (e - start + 1),
        (PortResult.Port ∘ fun q => checkPort (worlds q) q showPID) p = id p := by
      intro p _
      simp [checkPort_Port]
    rw [List.map_congr_left hcongr, List.map_id]
  have hsortperm : ((selSort collected).map PortResult.Port).Perm
      (List.range' start (e - start + 1)) := by
    have h := ((selSort_perm collected).map PortResult.Port).trans
      (hperm.map PortResult.Port)
    rwa [hmap] at h
  have hsorted : ((selSort collected).map PortResult.Port).Pairwise
      (fun a b => a ≤ b) :=
    (selSort_sorted collected).map PortResult.Port (fun _ _ h => h)
  have hrange : (List.range' start (e - start + 1)).Pairwise (fun a b => a ≤ b) :=
    (List.pairwise_lt_range' start (e - start + 1)).imp le_of_lt
  have heq : (selSort collected).map PortResult.Port
      = List.range' start (e - start + 1) :=
    List.eq_of_perm_of_sorted hsortperm hsorted hrange
  refine ⟨?_, heq, ?_⟩
  · have hlen := congrArg List.length heq
    rwa [List.length_map, List.length_range'] at hlen
  · rw [heq]
    exact (List.pairwise_lt_range' start (e - start + 1)).chain'

/-- A world in which every `net.Listen` succeeds (all ports free) and no
system file is readable: the witness world for C1. -/
def worldsFree : Nat → SysState := fun _ =>
  { listenFails := fun _ => false, tcp4 := none, tcp6 := none, proc := none }

/-- Witness for C1 at the concrete range `[3, 5]`, with the results arriving
in launch order. -/
theorem scan_sorted_complete_witness :
    (selSort (scanResults worldsFree false 3 (5 - 3 + 1))).length = 5 - 3 + 1 ∧
    (selSort (scanResults worldsFree false 3 (5 - 3 + 1))).map PortResult.Port
      = List.range' 3 (5 - 3 + 1) ∧
    List.Chain' (fun a b => a < b)
      ((selSort (scanResults worldsFree false 3 (5 - 3 + 1))).map PortResult.Port) :=
  scan_sorted_complete worldsFree false 3 5 (by decide) (by decide) (by decide)
    (scanResults worldsFree false 3 (5 - 3 + 1)) (List.Perm.refl _)

/-! ## Claim C2 -/

theorem countP_isRunning_replicate_pending (n : Nat) :
    (List.replicate n TaskPhase.pending).countP isRunning = 0 := by
  induction n with
  | zero => rfl
  | succ k ih => simp [List.replicate_succ, List.countP_cons, isRunning, ih]

/-- C2: in every state a range scan of `n` ports can reach by interleaved
acquire/release steps, at most `semCapacity = 100` tasks are inside their
probe (holding a semaphore slot) simultaneously, whatever `n` is. -/
theorem concurrency_ceiling (n : Nat) (s : List TaskPhase)
    (h : SemReachable (initTasks n) s) : runningCount s ≤ semCapacity := by
  induction h with
  | refl =>
    simp [runningCount, initTasks, countP_isRunning_replicate_pending, semCapacity]
  | step _ hstep ih =>
    cases hstep with
    | acquire pre post hlt =>
      simp only [runningCount, semCapacity, List.countP_append, List.countP_cons,
        isRunning, if_true, if_false, Bool.false_eq_true] at hlt ih ⊢
      omega
    | release pre post =>
      simp only [runningCount, semCapacity, List.countP_append, List.countP_cons,
        isRunning, if_true, if_false, Bool.false_eq_true] at ih ⊢
      omega

/-- Witness for C2: the launch state of a 500-port scan (larger than the
ceiling) is reachable and satisfies the bound. -/
theorem concurrency_ceiling_witness : runningCount (initTasks 500) ≤ semCapacity :=
  concurrency_ceiling 500 (initTasks 500) SemReachable.refl

/-! ## Claims C5, C6, C7 -/

/-- `findProcessByPort` either succeeds with a positive pid or returns
exactly the zero pair. -/
theorem findProcessByPort_shape (tcp4 tcp6 : Option (List String))
    (proc : Option ProcDir) (port : Nat) :
    0 < (findProcessByPort tcp4 tcp6 proc port).1 ∨
    findProcessByPort tcp4 tcp6 proc port = (0, "") := by
  unfold findProcessByPort
  split_ifs with h1 h2
  · exact Or.inl h1
  · exact Or.inl h2
  · exact Or.inr rfl

/-- C5: a probe's socket trace releases every successfully bound listener
before returning — no socket stays bound after `checkPort` on either exit
path, the only socket effects are the one bind attempt and (when it
succeeded) its close, and the instrumented probe computes exactly
`checkPort`.  A successive probe therefore sees the same world. -/
theorem probe_releases_listener (s : SysState) (port : Nat) (getPID : Bool) :
    openSockets [] (checkPortTr s port getPID).2 = [] ∧
    ((checkPortTr s port getPID).2 = [NetEff.listen port false] ∨
      (checkPortTr s port getPID).2
        = [NetEff.listen port true, NetEff.close port]) ∧
    (checkPortTr s port getPID).1 = checkPort s port getPID := by
  unfold checkPortTr checkPort
  split_ifs with h1 h2
  · exact ⟨rfl, Or.inl rfl, rfl⟩
  · exact ⟨rfl, Or.inl rfl, rfl⟩
  · refine ⟨?_, Or.inr rfl, rfl⟩
    show openSockets [] [NetEff.listen port true, NetEff.close port] = []
    show ([port].erase port) = []
    simp

/-- C6: `PID`/`Process` carry information only when the port is in use,
resolution was requested and it succeeded: whenever `InUse` is false both
are the zero values, and whenever either field is non-zero the port is in
use, the flag was set, the pid is positive, and the fields are exactly what
`findProcessByPort` returned. -/
theorem owner_fields_populated_iff (s : SysState) (port : Nat) (getPID : Bool) :
    ((checkPort s port getPID).InUse = false →
      (checkPort s port getPID).PID = 0 ∧ (checkPort s port getPID).Process = "") ∧
    ((checkPort s port getPID).PID ≠ 0 ∨ (checkPort s port getPID).Process ≠ "" →
      (checkPort s port getPID).InUse = true ∧ getPID = true ∧
      0 < (checkPort s port getPID).PID ∧
      findProcessByPort s.tcp4 s.tcp6 s.proc port
        = ((checkPort s port getPID).PID, (checkPort s port getPID).Process)) := by
  unfold checkPort
  split_ifs with h1 h2
  · refine ⟨fun hfalse => by simp at hfalse, fun hne => ?_⟩
    rcases findProcessByPort_shape s.tcp4 s.tcp6 s.proc port with hpos | hzero
    · exact ⟨rfl, h2, hpos, rfl⟩
    · rw [hzero] at hne
      simp at hne
  · refine ⟨fun hfalse => by simp at hfalse, fun hne => ?_⟩
    simp at hne
  · refine ⟨fun _ => ⟨rfl, rfl⟩, fun hne => ?_⟩
    simp at hne

/-- A world where every bind fails and nothing else is readable: resolution
is attempted (when asked) and fails. -/
def sBusyBare : SysState :=
  { listenFails := fun _ => true, tcp4 := none, tcp6 := none, proc := none }

/-- C7 counterexample: the `PortResult` for "resolution never requested"
and the one for "resolution requested and failed" are the very same value,
with the zero pid and the empty name — absence is represented by the
zero/empty values and is not distinguishable from failed resolution. -/
theorem absence_not_distinguishable_cx :
    checkPort sBusyBare 8080 false = checkPort sBusyBare 8080 true ∧
    (checkPort sBusyBare 8080 true).PID = 0 ∧
    (checkPort sBusyBare 8080 true).Process = "" := by decide

/-- C7 amended: in the `PortResult` produced for an in-use port, absence of
owner information (resolution not requested) and failed resolution produce
the identical result, `PID = 0` and `Process = ""`: the Go struct encodes
absence by the zero values, so the two states are not distinguishable from
the result alone (only the caller's `showPID` flag separates them when
printing). -/
theorem absence_equals_failed_resolution (s : SysState) (port : Nat)
    (hbusy : s.listenFails port = true)
    (hfail : findProcessByPort s.tcp4 s.tcp6 s.proc port = (0, "")) :
    checkPort s port false = checkPort s port true ∧
    checkPort s port true
      = { Port := port, InUse := true, PID := 0, Process := "" } := by
  unfold checkPort
  simp [hbusy, hfail]

/-- Witness for the amended C7 at a concrete world and port. -/
theorem absence_equals_failed_resolution_witness :
    checkPort sBusyBare 8081 false = checkPort sBusyBare 8081 true ∧
    checkPort sBusyBare 8081 true
      = { Port := 8081, InUse := true, PID := 0, Process := "" } :=
  absence_equals_failed_resolution sBusyBare 8081 rfl rfl

/-! ## Claim C3 -/

theorem hexVal_hexDigit : ∀ n < 16, hexVal (hexDigit n) = n := by decide

theorem hexDigit_mem_hexUpper : ∀ n < 16, hexDigit n ∈ hexUpper := by decide

theorem fromHexStr_portHex (p : Nat) (hp : p < 65536) :
    fromHexStr (portHex p) = p := by
  show List.foldl (fun a c => 16 * a + hexVal c) 0
    [hexDigit (p / 4096 % 16), hexDigit (p / 256 % 16),
      hexDigit (p / 16 % 16), hexDigit (p % 16)] = p
  simp only [List.foldl_cons, List.foldl_nil]
  rw [hexVal_hexDigit _ (Nat.mod_lt _ (by norm_num)),
    hexVal_hexDigit _ (Nat.mod_lt _ (by norm_num)),
    hexVal_hexDigit _ (Nat.mod_lt _ (by norm_num)),
    hexVal_hexDigit _ (Nat.mod_lt _ (by norm_num))]
  omega

/-- What a true `rowMatch` means, field by field. -/
theorem rowMatch_true (port : Nat) (row : String)
    (h : rowMatch port row = true) :
    10 ≤ (goFields row).length ∧
    (goSplitChar ':' ((goFields row).getD 1 "")).length = 2 ∧
    (goSplitChar ':' ((goFields row).getD 1 "")).getD 1 "" = portHex port ∧
    (goFields row).getD 3 "" = "0A" := by
  simp only [rowMatch] at h
  by_cases hl : (goFields row).length < 10
  · simp [hl] at h
  · simp only [hl, if_false, Bool.and_eq_true, beq_iff_eq] at h
    exact ⟨by omega, h.1.1, h.1.2, h.2⟩

/-- A positive answer of the row scan comes from a row of the scanned list
that satisfies the match condition, and is that row's inode resolution. -/
theorem scanRows_pos (proc : Option ProcDir) (port : Nat) (rows : List String)
    (pid : Int) (name : String) (h : scanRows proc port rows = (pid, name))
    (hpid : 0 < pid) :
    ∃ row ∈ rows, rowMatch port row = true ∧
      findPIDByInode proc (rowInode row) = (pid, name) := by
  induction rows with
  | nil =>
    simp only [scanRows, Prod.mk.injEq] at h
    obtain ⟨h1, _⟩ := h
    omega
  | cons row rest ih =>
    by_cases hm : rowMatch port row = true
    · rw [scanRows, if_pos hm] at h
      exact ⟨row, List.mem_cons_self row rest, hm, h⟩
    · rw [scanRows, if_neg hm] at h
      obtain ⟨r, hr, hm2, he⟩ := ih h
      exact ⟨r, List.mem_cons_of_mem row hr, hm2, he⟩

/-- A header line in the style of `/proc/net/tcp`. -/
def tcpHeaderEx : String :=
  "  sl  local_address rem_address   st tx_queue rx_queue tr tm->when retrnsmt   uid  timeout inode"

/-- A listening (`0A`) IPv4 row for port 8080 (hex `1F90`) with inode 33333. -/
def tcpRowEx : String :=
  "   0: 00000000:1F90 00000000:0000 0A 00000000:00000000 00:00000000 00000000  1000        0 33333 1 0000000000000000 100 0 0 10 0"

/-- A process tree in which process 4321 holds the descriptor link
`socket:[33333]` and its `comm` file reads `testproc`. -/
def procEx : ProcDir :=
  { entries := [{ name := "4321",
                  fds := some [some "socket:[33333]"],
                  comm := some "testproc\n" }],
    readErr := false }

/-- C3: the resolver compares rows against the queried port rendered as
4-digit uppercase hexadecimal (first conjunct: `portHex` has length 4,
uppercase-hex characters only, and decodes back to `p`), a positive pid is
returned only from a row whose local-address port field equals that hex
string and whose state field is the listening code `"0A"` (second
conjunct), and on the synthetic socket table and process tree of the claim,
`resolve(8080)` returns pid 4321 with name `"testproc"` (third conjunct). -/
theorem resolver_hex_listening_correlation :
    (∀ p : Nat, 1 ≤ p → p ≤ 65535 →
      (portHex p).length = 4 ∧ fromHexStr (portHex p) = p ∧
      ∀ c ∈ (portHex p).data, c ∈ hexUpper) ∧
    (∀ (header : String) (rows : List String) (port : Nat)
      (proc : Option ProcDir) (pid : Int) (name : String),
      searchNetFile (some (header :: rows)) port proc = (pid, name) → 0 < pid →
      ∃ row ∈ rows,
        (goSplitChar ':' ((goFields row).getD 1 "")).getD 1 "" = portHex port ∧
        (goFields row).getD 3 "" = "0A" ∧
        findPIDByInode proc (rowInode row) = (pid, name)) ∧
    findProcessByPort (some [tcpHeaderEx, tcpRowEx]) none (some procEx) 8080
      = (4321, "testproc") := by
  refine ⟨?_, ?_, ?_⟩
  · intro p _ h2
    refine ⟨rfl, fromHexStr_portHex p (by omega), ?_⟩
    intro c hc
    have hc' : c ∈ [hexDigit (p / 4096 % 16), hexDigit (p / 256 % 16),
        hexDigit (p / 16 % 16), hexDigit (p % 16)] := hc
    simp only [List.mem_cons, List.not_mem_nil, or_false] at hc'
    rcases hc' with rfl | rfl | rfl | rfl <;>
      exact hexDigit_mem_hexUpper _ (Nat.mod_lt _ (by norm_num))
  · intro header rows port proc pid name h hpid
    obtain ⟨row, hrow, hm, he⟩ := scanRows_pos proc port rows pid name h hpid
    obtain ⟨_, _, hhex, hst⟩ := rowMatch_true port row hm
    exact ⟨row, hrow, hhex, hst, he⟩
  · decide

/-! ## Claim C4 -/

/-- The row scan of every table is the row scan of its post-header rows. -/
theorem searchNetFile_eq_scan (content : Option (List String)) (port : Nat)
    (proc : Option ProcDir) :
    searchNetFile content port proc = scanRows proc port (tableRows content) := by
  match content with
  | none => rfl
  | some [] => rfl
  | some (_ :: _) => rfl

/-- A table none of whose rows matches scans to the zero answer. -/
theorem scanRows_no_match (proc : Option ProcDir) (port : Nat)
    (rows : List String) (h : ∀ r ∈ rows, rowMatch port r = false) :
    scanRows proc port rows = (0, "") := by
  induction rows with
  | nil => rfl
  | cons row rest ih =>
    rw [scanRows, if_neg (by simp [h row (List.mem_cons_self row rest)]),
      ih (fun r hr => h r (List.mem_cons_of_mem row hr))]

/-- The scan of rows with a first matching row resolves that row's inode. -/
theorem scanRows_first_match (proc : Option ProcDir) (port : Nat)
    (pre post : List String) (row : String)
    (hpre : ∀ r ∈ pre, rowMatch port r = false) (hrow : rowMatch port row = true) :
    scanRows proc port (pre ++ row :: post) = findPIDByInode proc (rowInode row) := by
  induction pre with
  | nil => rw [List.nil_append, scanRows, if_pos hrow]
  | cons r rest ih =>
    rw [List.cons_append, scanRows,
      if_neg (by simp [hpre r (List.mem_cons_self r rest)]),
      ih (fun q hq => hpre q (List.mem_cons_of_mem r hq))]

/-- An IPv4 row matching port 8080 in listening state, with inode 99 —
whose inode no process of the counterexample's tree holds. -/
def tcp4RowStale : String :=
  "   0: 00000000:1F90 00000000:0000 0A 00000000:00000000 00:00000000 00000000  1000        0 99 1 0000000000000000 100 0 0 10 0"

/-- An IPv6 row matching port 8080 in listening state, with inode 55. -/
def tcp6RowEx : String :=
  "   0: 00000000000000000000000000000000:1F90 00000000000000000000000000000000:0000 0A 00000000:00000000 00:00000000 00000000  1000        0 55 1 0000000000000000 100 0 0 10 0"

/-- A process tree where process 7 holds `socket:[55]` (the IPv6 inode) and
nothing holds inode 99. -/
def procP6 : ProcDir :=
  { entries := [{ name := "7",
                  fds := some [some "socket:[55]"],
                  comm := some "p6\n" }],
    readErr := false }

/-- C4 counterexample: the IPv4 table does contain a row matching the
queried port in listening state (`rowMatch` is true for it), yet the
returned owner comes from the IPv6 table — removing the IPv6 table changes
the answer to the zero pair.  The IPv6 table is thus consulted in a case
where the IPv4 table yielded a match (one whose inode correlation failed),
contradicting "consulted only when the IPv4 table yields no such match". -/
theorem ipv6_consulted_despite_ipv4_match_cx :
    rowMatch 8080 tcp4RowStale = true ∧
    findProcessByPort (some [tcpHeaderEx, tcp4RowStale])
      (some [tcpHeaderEx, tcp6RowEx]) (some procP6) 8080 = (7, "p6") ∧
    findProcessByPort (some [tcpHeaderEx, tcp4RowStale]) none (some procP6) 8080
      = (0, "") := by decide

/-- C4 amended: scanning stops at the first matching row (first conjunct);
the IPv6 table's content is used only when the IPv4 search returns no
positive pid — which happens when no IPv4 row matches or when the matching
row's inode cannot be correlated to a process — and otherwise the IPv4
answer is returned unchanged (second conjunct); when neither table has a
matching row, resolution fails with the zero pid and empty name (third
conjunct). -/
theorem lookup_order_and_fallback :
    (∀ (proc : Option ProcDir) (port : Nat) (pre post : List String)
      (row : String),
      (∀ r ∈ pre, rowMatch port r = false) → rowMatch port row = true →
      scanRows proc port (pre ++ row :: post)
        = findPIDByInode proc (rowInode row)) ∧
    (∀ (t4 t6 : Option (List String)) (proc : Option ProcDir) (port : Nat),
      0 < (searchNetFile t4 port proc).1 →
      findProcessByPort t4 t6 proc port = searchNetFile t4 port proc) ∧
    (∀ (t4 t6 : Option (List String)) (proc : Option ProcDir) (port : Nat),
      (∀ r ∈ tableRows t4, rowMatch port r = false) →
      (∀ r ∈ tableRows t6, rowMatch port r = false) →
      findProcessByPort t4 t6 proc port = (0, "")) := by
  refine ⟨scanRows_first_match, ?_, ?_⟩
  · intro t4 t6 proc port hpos
    unfold findProcessByPort
    rw [if_pos hpos]
  · intro t4 t6 proc port h4 h6
    unfold findProcessByPort
    rw [searchNetFile_eq_scan t4, searchNetFile_eq_scan t6,
      scanRows_no_match proc port _ h4, scanRows_no_match proc port _ h6]
    rfl

/-! ## Claim C8 -/

/-- A one-process tree whose process holds the wanted socket link but whose
`comm` file is unreadable. -/
def procNoComm (s : String) (fds : List (Option String)) : Option ProcDir :=
  some { entries := [{ name := s, fds := some fds, comm := none }],
         readErr := false }

/-- C8 (amended): when inode correlation finds the owning process but its
`comm` file is unreadable, the `part_000` implementation returns the pid
with the sentinel name `"unknown"`, while the `main.go` implementation
ignores the read error and returns the pid with the empty name. -/
theorem comm_unreadable_behavior (s : String) (pid : Int)
    (hname : goAtoi s = some pid) (fds : List (Option String)) (inode : String)
    (hmem : hasLink fds ("socket:[" ++ inode ++ "]") = true) :
    findPIDByInode2 (procNoComm s fds) inode = (pid, "unknown") ∧
    findPIDByInode (procNoComm s fds) inode = (pid, "") := by
  constructor
  · show scanEntries2 ("socket:[" ++ inode ++ "]")
      [{ name := s, fds := some fds, comm := none }] = (pid, "unknown")
    simp [scanEntries2, hname, hmem]
  · show scanEntries ("socket:[" ++ inode ++ "]")
      [{ name := s, fds := some fds, comm := none }] = (pid, "")
    simp [scanEntries, hname, hmem]
    rfl

/-- Witness for the amended C8 at a concrete process tree. -/
theorem comm_unreadable_behavior_witness :
    findPIDByInode2 (procNoComm "4321" [some "socket:[7070]"]) "7070"
      = (4321, "unknown") ∧
    findPIDByInode (procNoComm "4321" [some "socket:[7070]"]) "7070"
      = (4321, "") :=
  comm_unreadable_behavior "4321" 4321 (by decide) [some "socket:[7070]"] "7070"
    (by decide)

/-- C8 counterexample: `main.go`'s `findPIDByInode` (one of the two cited
implementations) returns the pid with the empty name, not with the sentinel
`"unknown"`, when the owner's `comm` file is unreadable. -/
theorem comm_unreadable_cx :
    findPIDByInode (procNoComm "651" [some "socket:[809]"]) "809" = (651, "") ∧
    ((651 : Int), "") ≠ ((651 : Int), "unknown") := by decide

/-! ## Claim C9 -/

/-- The `/proc` reads on which the two programs can differ are absent:
no `Readdirnames` error, and every entry's `comm` file readable. -/
def procReadable : Option ProcDir → Prop
  | none => True
  | some d => d.readErr = false ∧ ∀ e ∈ d.entries, e.comm ≠ none

theorem scanEntries_agree (link : String) (es : List ProcEntry)
    (h : ∀ e ∈ es, e.comm ≠ none) :
    scanEntries link es = scanEntries2 link es := by
  induction es with
  | nil => rfl
  | cons e es ih =>
    have he := h e (List.mem_cons_self e es)
    have hrest := ih (fun x hx => h x (List.mem_cons_of_mem e hx))
    simp only [scanEntries, scanEntries2]
    cases hA : goAtoi e.name with
    | none => exact hrest
    | some pid =>
      cases hF : e.fds with
      | none => exact hrest
      | some fds =>
        dsimp only
        by_cases hL : hasLink fds link = true
        · rw [if_pos hL, if_pos hL]
          cases hc : e.comm with
          | none => exact absurd hc he
          | some c => rfl
        · rw [if_neg hL, if_neg hL]
          exact hrest

theorem findPIDByInode_agree (proc : Option ProcDir) (h : procReadable proc)
    (inode : String) :
    findPIDByInode proc inode = findPIDByInode2 proc inode := by
  match proc, h with
  | none, _ => rfl
  | some d, ⟨herr, hcomm⟩ =>
    show scanEntries ("socket:[" ++ inode ++ "]") d.entries
      = if d.readErr then (0, "")
        else scanEntries2 ("socket:[" ++ inode ++ "]") d.entries
    rw [herr, if_neg (by simp)]
    exact scanEntries_agree _ _ hcomm

theorem rowMatch2_eq_rowMatch (port : Nat) (row : String) :
    rowMatch2 port row = rowMatch port row := by
  simp only [rowMatch, rowMatch2]
  by_cases hl : (goFields row).length < 10
  · simp [hl]
  · rw [if_neg hl, if_neg hl]
    cases hn : (goSplitChar ':' ((goFields row).getD 1 "")).length == 2 with
    | false => simp only [bne, hn, Bool.not_false, if_true, Bool.false_and]
    | true =>
      simp only [bne, hn, Bool.not_true, Bool.true_and]
      rw [if_neg (fun h => Bool.false_ne_true h)]

theorem scanRows_agree (proc : Option ProcDir) (h : procReadable proc)
    (port : Nat) (rows : List String) :
    scanRows proc port rows = scanRows2 proc port rows := by
  induction rows with
  | nil => rfl
  | cons row rest ih =>
    rw [scanRows, scanRows2, rowMatch2_eq_rowMatch]
    by_cases hm : rowMatch port row = true
    · rw [if_pos hm, if_pos hm]
      exact findPIDByInode_agree proc h (rowInode row)
    · rw [if_neg hm, if_neg hm]
      exact ih

theorem searchNetFile_agree (content : Option (List String)) (port : Nat)
    (proc : Option ProcDir) (h : procReadable proc) :
    searchNetFile content port proc = searchNetFile2 content port proc := by
  match content with
  | none => rfl
  | some [] => rfl
  | some (_ :: rows) => exact scanRows_agree proc h port rows

theorem findProcessByPort_agree (tcp4 tcp6 : Option (List String))
    (proc : Option ProcDir) (h : procReadable proc) (port : Nat) :
    findProcessByPort tcp4 tcp6 proc port
      = findProcessByPort2 tcp4 tcp6 proc port := by
  unfold findProcessByPort findProcessByPort2
  rw [searchNetFile_agree tcp4 port proc h, searchNetFile_agree tcp6 port proc h]

/-- A row matching port 3000 (hex `0BB8`) in listening state, inode 808. -/
def tcpRowC9 : String :=
  "   0: 00000000:0BB8 00000000:0000 0A 00000000:00000000 00:00000000 00000000  1000        0 808 1 0000000000000000 100 0 0 10 0"

/-- A world in which port 3000's owner (pid 650) has an unreadable `comm`
file: the two programs disagree on it. -/
def sC9 : SysState :=
  { listenFails := fun _ => true,
    tcp4 := some [tcpHeaderEx, tcpRowC9],
    tcp6 := none,
    proc := some { entries := [{ name := "650",
                                 fds := some [some "socket:[808]"],
                                 comm := none }],
                   readErr := false } }

/-- C9 counterexample: on a world where the owning process's `comm` file is
unreadable, the two programs' `checkPort` return different results
(`main.go` reports the owner name `""`, `part_000` reports `"unknown"`), so
the two top-level programs are not functionally identical. -/
theorem duplicate_programs_differ_cx :
    checkPort sC9 3000 true ≠ checkPort2 sC9 3000 true := by decide

/-- C9 amended: the two programs' `findPIDByInode`, `searchNetFile`,
`findProcessByPort` and `checkPort` return equal results on every input in
which `/proc` reading hits neither a `Readdirnames` error nor an unreadable
`comm` file (the two spots where the sources differ: `main.go` ignores both
errors, `part_000` handles them). -/
theorem duplicate_programs_agree (s : SysState) (h : procReadable s.proc) :
    (∀ inode, findPIDByInode s.proc inode = findPIDByInode2 s.proc inode) ∧
    (∀ content port,
      searchNetFile content port s.proc = searchNetFile2 content port s.proc) ∧
    (∀ port, findProcessByPort s.tcp4 s.tcp6 s.proc port
      = findProcessByPort2 s.tcp4 s.tcp6 s.proc port) ∧
    (∀ port getPID, checkPort s port getPID = checkPort2 s port getPID) := by
  refine ⟨fun inode => findPIDByInode_agree s.proc h inode,
    fun content port => searchNetFile_agree content port s.proc h,
    fun port => findProcessByPort_agree s.tcp4 s.tcp6 s.proc h port,
    fun port getPID => ?_⟩
  unfold checkPort checkPort2
  rw [findProcessByPort_agree s.tcp4 s.tcp6 s.proc h port]

/-- A world whose `/proc` tree is fully readable, for the C9 witness. -/
def sAgree : SysState :=
  { listenFails := fun _ => true,
    tcp4 := some [tcpHeaderEx, tcpRowEx],
    tcp6 := none,
    proc := some procEx }

/-- Witness for the amended C9 at a concrete readable world. -/
theorem duplicate_programs_agree_witness :
    (∀ inode, findPIDByInode sAgree.proc inode = findPIDByInode2 sAgree.proc inode) ∧
    (∀ content port,
      searchNetFile content port sAgree.proc = searchNetFile2 content port sAgree.proc) ∧
    (∀ port, findProcessByPort sAgree.tcp4 sAgree.tcp6 sAgree.proc port
      = findProcessByPort2 sAgree.tcp4 sAgree.tcp6 sAgree.proc port) ∧
    (∀ port getPID, checkPort sAgree port getPID = checkPort2 sAgree port getPID) :=
  duplicate_programs_agree sAgree ⟨rfl, by decide⟩

/-! ## Claim C10 -/

/-- A malformed socket-table row: fewer than 10 white-space-separated
fields, or a local-address field that does not split on `:` into exactly
two parts. -/
def isMalformed (row : String) : Prop :=
  (goFields row).length < 10 ∨
  (goSplitChar ':' ((goFields row).getD 1 "")).length ≠ 2

theorem rowMatch_malformed (port : Nat) (row : String) (h : isMalformed row) :
    rowMatch port row = false := by
  simp only [rowMatch]
  rcases h with h | h
  · simp [h]
  · by_cases hl : (goFields row).length < 10
    · simp [hl]
    · rw [if_neg hl]
      refine Bool.eq_false_iff.mpr fun htrue => ?_
      simp only [Bool.and_eq_true, beq_iff_eq] at htrue
      exact h htrue.1.1

theorem scanRows_skip (proc : Option ProcDir) (port : Nat)
    (pre post : List String) (bad : String) (hbad : rowMatch port bad = false) :
    scanRows proc port (pre ++ bad :: post) = scanRows proc port (pre ++ post) := by
  induction pre with
  | nil =>
    rw [List.nil_append, List.nil_append, scanRows, if_neg (by simp [hbad])]
  | cons r rest ih =>
    simp only [List.cons_append, scanRows]
    by_cases hm : rowMatch port r = true
    · rw [if_pos hm, if_pos hm]
    · rw [if_neg hm, if_neg hm]
      exact ih

theorem scanRows2_skip (proc : Option ProcDir) (port : Nat)
    (pre post : List String) (bad : String) (hbad : rowMatch2 port bad = false) :
    scanRows2 proc port (pre ++ bad :: post) = scanRows2 proc port (pre ++ post) := by
  induction pre with
  | nil =>
    rw [List.nil_append, List.nil_append, scanRows2, if_neg (by simp [hbad])]
  | cons r rest ih =>
    simp only [List.cons_append, scanRows2]
    by_cases hm : rowMatch2 port r = true
    · rw [if_pos hm, if_pos hm]
    · rw [if_neg hm, if_neg hm]
      exact ih

/-- C10: in both programs, a row with fewer than 10 fields or whose
local-address field does not split on `:` into exactly two parts is
silently skipped, wherever it sits among the rows: the scan's result is the
same as on the table without that row (and, the scan being a total
function, no access is out of bounds and no input makes it fail). -/
theorem malformed_rows_skipped (proc : Option ProcDir) (port : Nat)
    (header bad : String) (pre post : List String) (h : isMalformed bad) :
    searchNetFile (some (header :: (pre ++ bad :: post))) port proc
      = searchNetFile (some (header :: (pre ++ post))) port proc ∧
    searchNetFile2 (some (header :: (pre ++ bad :: post))) port proc
      = searchNetFile2 (some (header :: (pre ++ post))) port proc := by
  constructor
  · show scanRows proc port (pre ++ bad :: post)
      = scanRows proc port (pre ++ post)
    exact scanRows_skip proc port pre post bad (rowMatch_malformed port bad h)
  · show scanRows2 proc port (pre ++ bad :: post)
      = scanRows2 proc port (pre ++ post)
    refine scanRows2_skip proc port pre post bad ?_
    rw [rowMatch2_eq_rowMatch]
    exact rowMatch_malformed port bad h

/-- A row with only three fields. -/
def badRowEx : String := "   1: malformed"

/-- Witness for C10 at a concrete malformed row. -/
theorem malformed_rows_skipped_witness :
    searchNetFile (some ("hdr" :: ([] ++ badRowEx :: []))) 22 none
      = searchNetFile (some ("hdr" :: ([] ++ []))) 22 none ∧
    searchNetFile2 (some ("hdr" :: ([] ++ badRowEx :: []))) 22 none
      = searchNetFile2 (some ("hdr" :: ([] ++ []))) 22 none :=
  malformed_rows_skipped none 22 "hdr" badRowEx [] [] (Or.inl (by decide))

end Portcheck
